import Mathlib

/-!
Verification development for the turbofan mission-assembly repository.

The repository builds signomial-program constraint sets for an aircraft
mission in two variants:
* `engine_flight_profile_integration.py` — a simple climb + cruise mission;
* `TASOPT_flight_profile_2_climb_segs.py` — climb + climb + cruise-climb.

Both files contain a `StateLinking` model (a constraint generator tying
segment-local flight-state variables to a shared global flight-state
sequence) and a `Mission` model (the top-level constraint assembly).
This file embeds both, shallowly:

* `stateLinking3` / `stateLinking2` reproduce the loops of
  `StateLinking.setup`; each emitted equality constraint is recorded as a
  `LinkConstraint` (which tracked field, which segment, which local index,
  which global index) — exactly the data of the equality
  `segstate[varkey][localIdx] == enginestate[varkey][globalIdx]`.
* `stateLink3` / `stateLink2` additionally model Python's bounds checking
  on `enginestate[varkey][globalIdx]` for a shared sequence of length `L`
  (an out-of-range access raises `IndexError`, i.e. evaluates to `none`).
* `Expr` / `Constr` form a small constraint language over the mission
  variables; `mission2ClimbConstraints` and `missionSimpleConstraints`
  transcribe, group by group and in source order, the constraint lists
  built in the two `Mission.setup` bodies.  The assembled gpkit model also
  appends the sub-model constraint sets (`Aircraft`, the segment models and
  `FlightState` from `simple_ac_imports`, which is not part of this
  repository); those only add constraints, so any property proved for all
  valuations satisfying the transcribed lists holds a fortiori for all
  solutions of the full assembled model.
-/

namespace Turbofan

/-- The list of tracked flight-state variable names, copied from
`statevarkeys` in `StateLinking.setup` (identical in both variants). -/
def statevarkeys : List String :=
  ["p_{sl}", "T_{sl}", "L_{atm}", "M_{atm}", "P_{atm}", "R_{atm}",
   "\\rho", "T_{atm}", "\\mu", "T_s", "C_1", "h", "hft", "V", "a", "R", "\\gamma", "M"]

/-- One state-linking equality constraint
`segstate[statevarkeys[field]][localIdx] == enginestate[statevarkeys[field]][globalIdx]`,
recorded by its reference data: tracked-field index, segment number
(1 = first climb, 2 = second climb / cruise, 3 = cruise), local index into
the segment state and global index into the shared flight-state sequence. -/
structure LinkConstraint where
  field : Nat
  seg : Nat
  localIdx : Nat
  globalIdx : Nat
deriving DecidableEq

/-- The constraints emitted for one tracked field by the three inner loops of
`StateLinking.setup` in `TASOPT_flight_profile_2_climb_segs.py`:
segment 1 local `i` ↦ global `i`, segment 2 local `i` ↦ global `i + Nclimb1`,
segment 3 (cruise) local `i` ↦ global `i + Nclimb1 + Nclimb2`. -/
def linkChunk3 (N1 N2 N3 f : Nat) : List LinkConstraint :=
  ((List.range N1).map fun i => ⟨f, 1, i, i⟩)
    ++ ((List.range N2).map fun i => ⟨f, 2, i, i + N1⟩)
    ++ ((List.range N3).map fun i => ⟨f, 3, i, i + N1 + N2⟩)

/-- `StateLinking.setup` of the two-climb-segment variant: the outer loop over
the 18 tracked fields, each iteration running the three segment loops. -/
def stateLinking3 (N1 N2 N3 : Nat) : List LinkConstraint :=
  (List.range statevarkeys.length).flatMap (linkChunk3 N1 N2 N3)

/-- The constraints emitted for one tracked field by the two inner loops of
`StateLinking.setup` in `engine_flight_profile_integration.py`:
climb local `i` ↦ global `i`, cruise local `i` ↦ global `i + Nclimb`. -/
def linkChunk2 (N1 N2 f : Nat) : List LinkConstraint :=
  ((List.range N1).map fun i => ⟨f, 1, i, i⟩)
    ++ ((List.range N2).map fun i => ⟨f, 2, i, i + N1⟩)

/-- `StateLinking.setup` of the simple climb + cruise variant. -/
def stateLinking2 (N1 N2 : Nat) : List LinkConstraint :=
  (List.range statevarkeys.length).flatMap (linkChunk2 N1 N2)

/-- Python sequence indexing `enginestate[varkey][c.globalIdx]` against a
shared flight-state sequence of length `L`: in bounds yields the constraint,
out of bounds raises `IndexError` (modelled as `none`). -/
def checkIdx (L : Nat) (c : LinkConstraint) : Option LinkConstraint :=
  if c.globalIdx < L then some c else none

/-- Running `StateLinking.setup` (two-climb variant) against a shared
flight-state sequence of length `L`: every emitted constraint performs a
bounds-checked access into the shared sequence; the first out-of-range
access aborts construction (Python `IndexError`). -/
def stateLink3 (N1 N2 N3 L : Nat) : Option (List LinkConstraint) :=
  (stateLinking3 N1 N2 N3).mapM (checkIdx L)

/-- Running `StateLinking.setup` (simple variant) against a shared
flight-state sequence of length `L`. -/
def stateLink2 (N1 N2 L : Nat) : Option (List LinkConstraint) :=
  (stateLinking2 N1 N2).mapM (checkIdx L)

/-! ### Counting helpers -/

theorem countP_range_shift (off g : Nat) :
    ∀ N : Nat, (List.range N).countP (fun i => i + off == g)
      = if off ≤ g ∧ g < off + N then 1 else 0 := by
  intro N
  induction N with
  | zero =>
    have h : ¬(off ≤ g ∧ g < off) := by omega
    simp [h]
  | succ n ih =>
    rw [List.range_succ, List.countP_append, ih]
    have hsing : List.countP (fun i => i + off == g) [n]
        = if n + off = g then 1 else 0 := by
      simp [List.countP_cons]
    rw [hsing]
    split_ifs <;> omega

theorem countP_flatMap_const {α β : Type} (p : β → Bool) (K : Nat) :
    ∀ (l : List α) (f : α → List β), (∀ x ∈ l, (f x).countP p = K) →
      (l.flatMap f).countP p = l.length * K := by
  intro l
  induction l with
  | nil => intro f _; simp
  | cons a t ih =>
    intro f h
    rw [List.flatMap_cons, List.countP_append, h a (by simp),
      ih f (fun x hx => h x (by simp [hx])), List.length_cons]
    ring

theorem length_flatMap_const {α β : Type} (K : Nat) :
    ∀ (l : List α) (f : α → List β), (∀ x ∈ l, (f x).length = K) →
      (l.flatMap f).length = l.length * K := by
  intro l
  induction l with
  | nil => intro f _; simp
  | cons a t ih =>
    intro f h
    rw [List.flatMap_cons, List.length_append, h a (by simp),
      ih f (fun x hx => h x (by simp [hx])), List.length_cons]
    ring

theorem linkChunk3_length (N1 N2 N3 f : Nat) :
    (linkChunk3 N1 N2 N3 f).length = N1 + N2 + N3 := by
  simp [linkChunk3]
  omega

theorem linkChunk3_countP_global (N1 N2 N3 f g : Nat) (hg : g < N1 + N2 + N3) :
    (linkChunk3 N1 N2 N3 f).countP (fun c => c.globalIdx == g) = 1 := by
  unfold linkChunk3
  rw [List.countP_append, List.countP_append, List.countP_map, List.countP_map,
    List.countP_map]
  have h1 : ((fun c : LinkConstraint => c.globalIdx == g) ∘ fun i => (⟨f, 1, i, i⟩ : LinkConstraint))
      = fun i => i + 0 == g := by
    funext i; simp [Function.comp]
  have h2 : ((fun c : LinkConstraint => c.globalIdx == g) ∘ fun i => (⟨f, 2, i, i + N1⟩ : LinkConstraint))
      = fun i => i + N1 == g := by
    funext i; simp [Function.comp]
  have h3 : ((fun c : LinkConstraint => c.globalIdx == g) ∘ fun i => (⟨f, 3, i, i + N1 + N2⟩ : LinkConstraint))
      = fun i => i + (N1 + N2) == g := by
    funext i; simp [Function.comp]; omega
  rw [h1, h2, h3, countP_range_shift, countP_range_shift, countP_range_shift]
  split_ifs <;> omega

theorem stateLinking3_length (N1 N2 N3 : Nat) :
    (stateLinking3 N1 N2 N3).length = 18 * (N1 + N2 + N3) := by
  unfold stateLinking3
  rw [length_flatMap_const (N1 + N2 + N3) _ _
    (fun x _ => linkChunk3_length N1 N2 N3 x)]
  simp [statevarkeys]

theorem stateLinking3_countP_global (N1 N2 N3 g : Nat) (hg : g < N1 + N2 + N3) :
    (stateLinking3 N1 N2 N3).countP (fun c => c.globalIdx == g) = 18 := by
  unfold stateLinking3
  rw [countP_flatMap_const _ 1 _ _
    (fun x _ => linkChunk3_countP_global N1 N2 N3 x g hg)]
  simp [statevarkeys]

theorem mem_linkChunk3 (N1 N2 N3 f : Nat) (c : LinkConstraint)
    (hc : c ∈ linkChunk3 N1 N2 N3 f) :
    c.field = f ∧
      ((c.seg = 1 ∧ c.localIdx < N1 ∧ c.globalIdx = c.localIdx) ∨
       (c.seg = 2 ∧ c.localIdx < N2 ∧ c.globalIdx = c.localIdx + N1) ∨
       (c.seg = 3 ∧ c.localIdx < N3 ∧ c.globalIdx = c.localIdx + N1 + N2)) := by
  simp only [linkChunk3, List.mem_append, List.mem_map, List.mem_range] at hc
  rcases hc with (⟨i, hi, he⟩ | ⟨i, hi, he⟩) | ⟨i, hi, he⟩ <;> subst he <;> simp [hi]

theorem mem_stateLinking3 (N1 N2 N3 : Nat) (c : LinkConstraint)
    (hc : c ∈ stateLinking3 N1 N2 N3) :
    c.field < 18 ∧
      ((c.seg = 1 ∧ c.localIdx < N1 ∧ c.globalIdx = c.localIdx) ∨
       (c.seg = 2 ∧ c.localIdx < N2 ∧ c.globalIdx = c.localIdx + N1) ∨
       (c.seg = 3 ∧ c.localIdx < N3 ∧ c.globalIdx = c.localIdx + N1 + N2)) := by
  simp only [stateLinking3, List.mem_flatMap, List.mem_range] at hc
  obtain ⟨f, hf, hcf⟩ := hc
  obtain ⟨hfield, hrest⟩ := mem_linkChunk3 N1 N2 N3 f c hcf
  refine ⟨?_, hrest⟩
  have : statevarkeys.length = 18 := by simp [statevarkeys]
  omega

theorem linkChunk3_nodup (N1 N2 N3 f : Nat) : (linkChunk3 N1 N2 N3 f).Nodup := by
  unfold linkChunk3
  rw [List.append_assoc]
  have inj1 : Function.Injective (fun i => (⟨f, 1, i, i⟩ : LinkConstraint)) := by
    intro a b h; simpa using congrArg LinkConstraint.localIdx h
  have inj2 : Function.Injective (fun i => (⟨f, 2, i, i + N1⟩ : LinkConstraint)) := by
    intro a b h; simpa using congrArg LinkConstraint.localIdx h
  have inj3 : Function.Injective (fun i => (⟨f, 3, i, i + N1 + N2⟩ : LinkConstraint)) := by
    intro a b h; simpa using congrArg LinkConstraint.localIdx h
  refine List.Nodup.append (List.Nodup.map inj1 (List.nodup_range _))
    (List.Nodup.append (List.Nodup.map inj2 (List.nodup_range _))
      (List.Nodup.map inj3 (List.nodup_range _)) ?_) ?_
  · intro c hc2 hc3
    simp only [List.mem_map, List.mem_range] at hc2 hc3
    obtain ⟨i, _, he⟩ := hc2
    obtain ⟨j, _, hj⟩ := hc3
    subst he
    exact absurd (congrArg LinkConstraint.seg hj) (by simp)
  · intro c hc1 hc23
    simp only [List.mem_map, List.mem_range, List.mem_append] at hc1 hc23
    obtain ⟨i, _, he⟩ := hc1
    subst he
    rcases hc23 with ⟨j, _, hj⟩ | ⟨j, _, hj⟩ <;>
      exact absurd (congrArg LinkConstraint.seg hj) (by simp)

theorem stateLinking3_nodup (N1 N2 N3 : Nat) : (stateLinking3 N1 N2 N3).Nodup := by
  unfold stateLinking3
  rw [List.nodup_flatMap]
  refine ⟨fun f _ => linkChunk3_nodup N1 N2 N3 f, ?_⟩
  refine List.Pairwise.imp ?_ (List.pairwise_lt_range statevarkeys.length)
  intro a b hab
  simp only [Function.onFun]
  intro c hca hcb
  have ha := (mem_linkChunk3 N1 N2 N3 a c hca).1
  have hb := (mem_linkChunk3 N1 N2 N3 b c hcb).1
  omega

theorem mem_linkChunk2 (N1 N2 f : Nat) (c : LinkConstraint)
    (hc : c ∈ linkChunk2 N1 N2 f) :
    c.field = f ∧
      ((c.seg = 1 ∧ c.localIdx < N1 ∧ c.globalIdx = c.localIdx) ∨
       (c.seg = 2 ∧ c.localIdx < N2 ∧ c.globalIdx = c.localIdx + N1)) := by
  simp only [linkChunk2, List.mem_append, List.mem_map, List.mem_range] at hc
  rcases hc with ⟨i, hi, he⟩ | ⟨i, hi, he⟩ <;> subst he <;> simp [hi]

theorem mem_stateLinking2 (N1 N2 : Nat) (c : LinkConstraint)
    (hc : c ∈ stateLinking2 N1 N2) :
    c.field < 18 ∧
      ((c.seg = 1 ∧ c.localIdx < N1 ∧ c.globalIdx = c.localIdx) ∨
       (c.seg = 2 ∧ c.localIdx < N2 ∧ c.globalIdx = c.localIdx + N1)) := by
  simp only [stateLinking2, List.mem_flatMap, List.mem_range] at hc
  obtain ⟨f, hf, hcf⟩ := hc
  obtain ⟨hfield, hrest⟩ := mem_linkChunk2 N1 N2 f c hcf
  refine ⟨?_, hrest⟩
  have : statevarkeys.length = 18 := by simp [statevarkeys]
  omega

/-! ### A small constraint language for the Mission assemblies

gpkit models are lists of (in)equality constraints between algebraic
expressions in named positive variables.  `Expr` and `Constr` mirror the
expression forms actually used by the two `Mission.setup` bodies; `Tight`
(`TCS`) is an annotation carried on a constraint, with the plain inequality
as its solve-time meaning, and `SignomialEquality` is an equality handled
by local linearization, whose meaning at a solution is exact equality. -/

inductive Expr (V : Type) where
  | var (x : V)
  | const (q : ℚ)
  | add (a b : Expr V)
  | sub (a b : Expr V)
  | mul (a b : Expr V)
  | div (a b : Expr V)
deriving DecidableEq

/-- numpy-style `sum(...)` over a vectorized variable. -/
def Expr.sumL {V : Type} (l : List (Expr V)) : Expr V :=
  l.foldr .add (.const 0)

inductive Constr (V : Type) where
  | eq (a b : Expr V)
  | le (a b : Expr V)
  | ge (a b : Expr V)
  | sigEq (a b : Expr V)
  | tight (c : Constr V)
deriving DecidableEq

/-- Value of an expression under a valuation of the variables. -/
def Expr.eval {V : Type} (v : V → ℚ) : Expr V → ℚ
  | .var x => v x
  | .const q => q
  | .add a b => a.eval v + b.eval v
  | .sub a b => a.eval v - b.eval v
  | .mul a b => a.eval v * b.eval v
  | .div a b => a.eval v / b.eval v

/-- A constraint holds at a valuation.  `tight` (gpkit `TCS`) is an
annotation for post-solve diagnostics; its constraint meaning is that of
the wrapped constraint.  `sigEq` means exact equality at a solution. -/
def Constr.holds {V : Type} (v : V → ℚ) : Constr V → Prop
  | .eq a b => a.eval v = b.eval v
  | .le a b => a.eval v ≤ b.eval v
  | .ge a b => b.eval v ≤ a.eval v
  | .sigEq a b => a.eval v = b.eval v
  | .tight c => c.holds v

def Constr.holdsDec {V : Type} (v : V → ℚ) : (c : Constr V) → Decidable (c.holds v)
  | .eq a b => inferInstanceAs (Decidable (_ = _))
  | .le a b => inferInstanceAs (Decidable (_ ≤ _))
  | .ge a b => inferInstanceAs (Decidable (_ ≤ _))
  | .sigEq a b => inferInstanceAs (Decidable (_ = _))
  | .tight c => c.holdsDec v

instance {V : Type} (v : V → ℚ) (c : Constr V) : Decidable (c.holds v) :=
  c.holdsDec v

/-- A valuation satisfies a constraint list. -/
def satList {V : Type} (v : V → ℚ) (l : List (Constr V)) : Prop :=
  ∀ c ∈ l, c.holds v

instance {V : Type} (v : V → ℚ) (l : List (Constr V)) : Decidable (satList v l) :=
  List.decidableBAll _ l

theorem satList_append {V : Type} (v : V → ℚ) (l1 l2 : List (Constr V)) :
    satList v (l1 ++ l2) ↔ satList v l1 ∧ satList v l2 := by
  constructor
  · intro h
    exact ⟨fun c hc => h c (List.mem_append_left _ hc),
           fun c hc => h c (List.mem_append_right _ hc)⟩
  · rintro ⟨h1, h2⟩ c hc
    rcases List.mem_append.mp hc with h | h
    · exact h1 c h
    · exact h2 c h

theorem satList_of_append_left {V : Type} {v : V → ℚ} {l1 l2 : List (Constr V)}
    (h : satList v (l1 ++ l2)) : satList v l1 :=
  ((satList_append v l1 l2).mp h).1

theorem satList_of_append_right {V : Type} {v : V → ℚ} {l1 l2 : List (Constr V)}
    (h : satList v (l1 ++ l2)) : satList v l2 :=
  ((satList_append v l1 l2).mp h).2

theorem Expr.eval_sumL {V : Type} (v : V → ℚ) (l : List (Expr V)) :
    (Expr.sumL l).eval v = (l.map (Expr.eval v)).sum := by
  induction l with
  | nil => simp [Expr.sumL, Expr.eval]
  | cons a t ih => simp [Expr.sumL, Expr.eval] at ih ⊢; rw [ih]

/-! ### Mission variables

One variable type serves both Mission variants (the unused constructors of
one variant are simply never mentioned by the other's constraint list).
Scalar mission variables keep their source names; per-segment vectorized
variables are `sv segment field index`; engine vectorized outputs
(`TSFC`, `F`) and engine-performance station variables (`M_2`, `M_{2.5}`,
`hold_{2}`, `hold_{2.5}`, `c1`) are indexed by global mission index. -/

inductive Seg where
  | climb1 | climb2 | climb | cruise
deriving DecidableEq

inductive SegField where
  | Wstart | Wend | Wburn | hft | dhft | thr | Rng | V | RC
  | M | D | Wavg | theta | excessP | zbre
deriving DecidableEq

inductive MVar where
  | W_ftotal | W_fclimb1 | W_fclimb2 | W_fclimb | W_fcruise | W_total
  | CruiseAlt | ReqRng | W_dry | RCmin
  | dhftholdcl1 | dhftholdcl2 | dhftholdcr | dhfthold
  | W_e | W_payload | numeng | W_engine | W_wing
  | sv (s : Seg) (f : SegField) (i : Nat)
  | TSFC (i : Nat)
  | F (i : Nat)
  | M2 (i : Nat)
  | M25 (i : Nat)
  | hold2 (i : Nat)
  | hold25 (i : Nat)
  | c1 (i : Nat)
deriving DecidableEq

/-- Shorthand: a segment-local vectorized variable as an expression. -/
def vS (s : Seg) (f : SegField) (i : Nat) : Expr MVar := .var (.sv s f i)

/-- Shorthand: a scalar mission variable as an expression. -/
def vG (x : MVar) : Expr MVar := .var x

/-- `1+.5*(1.398-1)*M2**2` with `M2 = .8` (idealized to exact rationals). -/
def holdTwoVal : ℚ := 1 + (1/2) * (1398/1000 - 1) * ((8/10) * (8/10))

/-- `1+.5*(1.354-1)*M25**2` with `M25 = .6`. -/
def holdTwoFiveVal : ℚ := 1 + (1/2) * (1354/1000 - 1) * ((6/10) * (6/10))

/-- `1+.5*(.401)*M0**2` with `M0 = .8`. -/
def cOneVal : ℚ := 1 + (1/2) * (401/1000) * ((8/10) * (8/10))

/-! ### The two-climb-segment Mission (`TASOPT_flight_profile_2_climb_segs.py`)

`Mission.setup(Nclimb1, Nclimb2, Ncruise)` builds its `constraints` list in
groups (weights, altitudes, range, fuel burn, speed limit) and then the
engine wiring lists `enginecruise`, `engineclimb1`, `engineclimb2`.  Units:
weights in N, altitudes in ft, ranges in nautical miles, speeds in knots —
each constraint below is written in the unit its source line uses.
Vectorized gpkit constraints broadcast to one scalar constraint per index,
and `x[-1]` is index `N-1`; slices `x[1:]`/`x[:-1]` pair indices
`(i+1, i)` for `i < N-1`.  The commented-out constraints of the source
(the inequality form of the cruise altitude chain, line 137, and the
minimum-climb-rate constraint, line 164) are deliberately absent. -/

def weightC3 (N1 N2 N3 : Nat) : List (Constr MVar) :=
  [ .tight (.le (.add (.add (.add (vG .W_e) (vG .W_payload))
        (.mul (vG .numeng) (vG .W_engine))) (vG .W_wing)) (vG .W_dry)),
    .tight (.le (.add (vG .W_dry) (vG .W_ftotal)) (vG .W_total)),
    .eq (vS .climb1 .Wstart 0) (vG .W_total),
    .eq (vS .climb1 .Wend (N1 - 1)) (vS .climb2 .Wstart 0),
    .eq (vS .climb2 .Wend (N2 - 1)) (vS .cruise .Wstart 0) ]
  ++ ((List.range N1).map fun i =>
      .tight (.ge (vS .climb1 .Wstart i) (.add (vS .climb1 .Wend i) (vS .climb1 .Wburn i))))
  ++ ((List.range N2).map fun i =>
      .tight (.ge (vS .climb2 .Wstart i) (.add (vS .climb2 .Wend i) (vS .climb2 .Wburn i))))
  ++ ((List.range N3).map fun i =>
      .tight (.ge (vS .cruise .Wstart i) (.add (vS .cruise .Wend i) (vS .cruise .Wburn i))))
  ++ ((List.range (N1 - 1)).map fun i =>
      .eq (vS .climb1 .Wstart (i + 1)) (vS .climb1 .Wend i))
  ++ ((List.range (N2 - 1)).map fun i =>
      .eq (vS .climb2 .Wstart (i + 1)) (vS .climb2 .Wend i))
  ++ ((List.range (N3 - 1)).map fun i =>
      .eq (vS .cruise .Wstart (i + 1)) (vS .cruise .Wend i))
  ++ [ .tight (.le (vG .W_dry) (vS .cruise .Wend (N3 - 1))),
       .tight (.ge (vG .W_ftotal)
         (.add (.add (vG .W_fclimb1) (vG .W_fclimb2)) (vG .W_fcruise))),
       .tight (.ge (vG .W_fclimb1) (.sumL ((List.range N1).map (vS .climb1 .Wburn)))),
       .tight (.ge (vG .W_fclimb2) (.sumL ((List.range N2).map (vS .climb2 .Wburn)))),
       .tight (.ge (vG .W_fcruise) (.sumL ((List.range N3).map (vS .cruise .Wburn)))) ]

def altC3 (N1 N2 N3 : Nat) : List (Constr MVar) :=
  [ .eq (vS .cruise .hft 0) (vG .CruiseAlt) ]
  ++ ((List.range (N3 - 1)).map fun i =>
      .sigEq (vS .cruise .hft (i + 1)) (.add (vS .cruise .hft i) (vG .dhftholdcr)))
  ++ ((List.range (N2 - 1)).map fun i =>
      .tight (.le (vS .climb2 .hft (i + 1)) (.add (vS .climb2 .hft i) (vG .dhftholdcl2))))
  ++ [ .tight (.le (vS .climb2 .hft 0) (.add (vG .dhftholdcl2) (.const 10000))) ]
  ++ ((List.range N3).map fun i =>
      .eq (vS .climb2 .hft (N2 - 1)) (vS .cruise .hft i))
  ++ ((List.range (N1 - 1)).map fun i =>
      .tight (.ge (vS .climb1 .hft (i + 1)) (.add (vS .climb1 .hft i) (vG .dhftholdcl1))))
  ++ [ .tight (.eq (vS .climb1 .hft 0) (vS .climb1 .dhft 0)),
       .eq (vS .climb1 .hft (N1 - 1)) (.const 10000) ]
  ++ ((List.range N3).map fun i =>
      .ge (vG .dhftholdcl2) (.div (.sub (vS .cruise .hft i) (.const 10000)) (.const (N2 : ℚ))))
  ++ ((List.range N2).map fun i => .eq (vG .dhftholdcl2) (vS .climb2 .dhft i))
  ++ [ .eq (vG .dhftholdcl1) (.div (.const 10000) (.const (N1 : ℚ))) ]
  ++ ((List.range N1).map fun i => .eq (vG .dhftholdcl1) (vS .climb1 .dhft i))
  ++ ((List.range N3).map fun i => .eq (vS .cruise .dhft i) (vG .dhftholdcr))

def rangeC3 (N1 N2 N3 : Nat) : List (Constr MVar) :=
  [ .ge (.add (.add (.sumL ((List.range N3).map (vS .cruise .Rng)))
        (.sumL ((List.range N2).map (vS .climb2 .Rng))))
        (.sumL ((List.range N1).map (vS .climb1 .Rng))))
      (vG .ReqRng) ]

def fuelC3 (N1 N2 N3 : Nat) : List (Constr MVar) :=
  ((List.range N3).map fun i =>
    .eq (vS .cruise .Wburn i)
      (.mul (.mul (.mul (vG .numeng) (.var (.TSFC (N1 + N2 + i)))) (vS .cruise .thr i))
        (.var (.F (N1 + N2 + i)))))
  ++ ((List.range N1).map fun i =>
    .eq (vS .climb1 .Wburn i)
      (.mul (.mul (.mul (vG .numeng) (.var (.TSFC i))) (vS .climb1 .thr i))
        (.var (.F i))))
  ++ ((List.range N2).map fun i =>
    .eq (vS .climb2 .Wburn i)
      (.mul (.mul (.mul (vG .numeng) (.var (.TSFC (N1 + i)))) (vS .climb2 .thr i))
        (.var (.F (N1 + i)))))

def speedC3 (N1 : Nat) : List (Constr MVar) :=
  (List.range N1).map fun i => .le (vS .climb1 .V i) (.const 250)

def engineclimb1C3 (N1 N2 N3 : Nat) : List (Constr MVar) :=
  ((List.range N1).map fun i => .eq (.var (.M2 i)) (vS .climb1 .M i))
  ++ ((List.range (N1 + N2 + N3)).map fun i => .eq (.var (.M25 i)) (.const (6/10)))
  ++ ((List.range (N1 + N2 + N3)).map fun i => .eq (.var (.hold2 i)) (.const holdTwoVal))
  ++ ((List.range (N1 + N2 + N3)).map fun i => .eq (.var (.hold25 i)) (.const holdTwoFiveVal))
  ++ ((List.range (N1 + N2 + N3)).map fun i => .eq (.var (.c1 i)) (.const cOneVal))
  ++ ((List.range N1).map fun i =>
      .ge (.mul (vG .numeng) (.var (.F i)))
        (.add (vS .climb1 .D i) (.mul (vS .climb1 .Wavg i) (vS .climb1 .theta i))))
  ++ ((List.range N1).map fun i =>
      .tight (.le (.add (vS .climb1 .excessP i) (.mul (vS .climb1 .V i) (vS .climb1 .D i)))
        (.mul (.mul (vS .climb1 .V i) (vG .numeng)) (.var (.F i)))))

def engineclimb2C3 (N1 N2 : Nat) : List (Constr MVar) :=
  ((List.range N2).map fun i => .eq (.var (.M2 (N1 + i))) (vS .climb2 .M i))
  ++ ((List.range N2).map fun i =>
      .ge (.mul (vG .numeng) (.var (.F (N1 + i))))
        (.add (vS .climb2 .D i) (.mul (vS .climb2 .Wavg i) (vS .climb2 .theta i))))
  ++ ((List.range N2).map fun i =>
      .tight (.le (.add (vS .climb2 .excessP i) (.mul (vS .climb2 .V i) (vS .climb2 .D i)))
        (.mul (.mul (vS .climb2 .V i) (vG .numeng)) (.var (.F (N1 + i))))))

def enginecruiseC3 (N1 N2 N3 : Nat) : List (Constr MVar) :=
  ((List.range N3).map fun i => .eq (.var (.M2 (N1 + N2 + i))) (vS .cruise .M i))
  ++ ((List.range N3).map fun i =>
      .ge (.mul (vG .numeng) (.var (.F (N1 + N2 + i))))
        (.add (vS .cruise .D i) (.mul (vS .cruise .Wavg i) (vS .cruise .theta i))))
  ++ ((List.range N3).map fun i =>
      .tight (.le (.add (vS .cruise .excessP i) (.mul (vS .cruise .V i) (vS .cruise .D i)))
        (.mul (.mul (vS .cruise .V i) (vG .numeng)) (.var (.F (N1 + N2 + i))))))

/-- All constraints written by `Mission.setup` of the two-climb-segment
variant itself, in source order (its own `constraints` list followed by
`enginecruise`, `engineclimb1`, `engineclimb2` as in the `return`
statement).  The returned gpkit model additionally contains the sub-model
constraint sets (`Aircraft`, the segment models, `FlightState`,
`StateLinking`), which only add further constraints. -/
def mission2ClimbConstraints (N1 N2 N3 : Nat) : List (Constr MVar) :=
  weightC3 N1 N2 N3 ++ altC3 N1 N2 N3 ++ rangeC3 N1 N2 N3 ++ fuelC3 N1 N2 N3
    ++ speedC3 N1 ++ enginecruiseC3 N1 N2 N3 ++ engineclimb1C3 N1 N2 N3
    ++ engineclimb2C3 N1 N2

/-! ### The simple climb + cruise Mission (`engine_flight_profile_integration.py`)

`Mission.setup(Nclimb, Ncruise)` in the same transcription style.  The
single climb segment is `Seg.climb`; `hftCruise == CruiseAlt` and
`hftClimb[-1] <= hftCruise` broadcast over all cruise indices, and
`climb['RC'] >= RCmin` broadcasts over all climb indices. -/

def weightCS (Nc Ncr : Nat) : List (Constr MVar) :=
  [ .tight (.le (.add (.add (.add (vG .W_e) (vG .W_payload))
        (.mul (vG .numeng) (vG .W_engine))) (vG .W_wing)) (vG .W_dry)),
    .tight (.le (.add (vG .W_dry) (vG .W_ftotal)) (vG .W_total)),
    .eq (vS .climb .Wstart 0) (vG .W_total),
    .eq (vS .climb .Wend (Nc - 1)) (vS .cruise .Wstart 0) ]
  ++ ((List.range Nc).map fun i =>
      .tight (.ge (vS .climb .Wstart i) (.add (vS .climb .Wend i) (vS .climb .Wburn i))))
  ++ ((List.range Ncr).map fun i =>
      .tight (.ge (vS .cruise .Wstart i) (.add (vS .cruise .Wend i) (vS .cruise .Wburn i))))
  ++ ((List.range (Nc - 1)).map fun i =>
      .eq (vS .climb .Wstart (i + 1)) (vS .climb .Wend i))
  ++ ((List.range (Ncr - 1)).map fun i =>
      .eq (vS .cruise .Wstart (i + 1)) (vS .cruise .Wend i))
  ++ [ .tight (.le (vG .W_dry) (vS .cruise .Wend (Ncr - 1))),
       .tight (.ge (vG .W_ftotal) (.add (vG .W_fclimb) (vG .W_fcruise))),
       .tight (.ge (vG .W_fclimb) (.sumL ((List.range Nc).map (vS .climb .Wburn)))),
       .tight (.ge (vG .W_fcruise) (.sumL ((List.range Ncr).map (vS .cruise .Wburn)))) ]

/-- The altitude constraints of the simple variant
(`engine_flight_profile_integration.py`, the block from
`hftCruise == CruiseAlt` through `dhft == dhfthold`). -/
def altCS (Nc Ncr : Nat) : List (Constr MVar) :=
  ((List.range Ncr).map fun i => .eq (vS .cruise .hft i) (vG .CruiseAlt))
  ++ ((List.range (Nc - 1)).map fun i =>
      .tight (.ge (vS .climb .hft (i + 1)) (.add (vS .climb .hft i) (vS .climb .dhft i))))
  ++ [ .tight (.ge (vS .climb .hft 0) (vS .climb .dhft 0)) ]
  ++ ((List.range Ncr).map fun i => .le (vS .climb .hft (Nc - 1)) (vS .cruise .hft i))
  ++ [ .eq (vG .dhfthold) (.div (vS .cruise .hft 0) (.const (Nc : ℚ))) ]
  ++ ((List.range Nc).map fun i => .eq (vS .climb .dhft i) (vG .dhfthold))

def rangeCS (Nc Ncr : Nat) : List (Constr MVar) :=
  (List.range Ncr).map fun i =>
    .eq (vS .cruise .Rng i) (.div (vG .ReqRng) (.const (Ncr : ℚ)))

def fuelCS (Nc Ncr : Nat) : List (Constr MVar) :=
  ((List.range Ncr).map fun i =>
    .eq (vS .cruise .Wburn i)
      (.mul (.mul (.mul (vG .numeng) (.var (.TSFC (Nc + i)))) (vS .cruise .thr i))
        (.var (.F (Nc + i)))))
  ++ ((List.range Nc).map fun i =>
    .eq (vS .climb .Wburn i)
      (.mul (.mul (.mul (vG .numeng) (.var (.TSFC i))) (vS .climb .thr i))
        (.var (.F i))))

def caMinCS : List (Constr MVar) :=
  [ .ge (vG .CruiseAlt) (.const 30000) ]

def rcminCS (Nc : Nat) : List (Constr MVar) :=
  (List.range Nc).map fun i => .ge (vS .climb .RC i) (vG .RCmin)

def enginecruiseCS (Nc Ncr : Nat) : List (Constr MVar) :=
  ((List.range Ncr).map fun i => .eq (.var (.M2 (Nc + i))) (vS .cruise .M i))
  ++ ((List.range Ncr).map fun i => .eq (.var (.M25 (Nc + i))) (.const (6/10)))
  ++ ((List.range Ncr).map fun i =>
      .eq (vS .cruise .D i) (.mul (vG .numeng) (.var (.F (Nc + i)))))
  ++ ((List.range Ncr).map fun i =>
      .tight (.ge (vS .cruise .zbre i)
        (.div (.mul (.mul (.var (.TSFC (Nc + i))) (vS .cruise .thr i)) (vS .cruise .D i))
          (vS .cruise .Wavg i))))

def engineclimbCS (Nc Ncr : Nat) : List (Constr MVar) :=
  ((List.range Nc).map fun i => .eq (.var (.M2 i)) (vS .climb .M i))
  ++ ((List.range Nc).map fun i => .eq (.var (.M25 i)) (.const (6/10)))
  ++ ((List.range (Nc + Ncr)).map fun i => .eq (.var (.hold2 i)) (.const holdTwoVal))
  ++ ((List.range (Nc + Ncr)).map fun i => .eq (.var (.hold25 i)) (.const holdTwoFiveVal))
  ++ ((List.range (Nc + Ncr)).map fun i => .eq (.var (.c1 i)) (.const cOneVal))
  ++ ((List.range Nc).map fun i =>
      .ge (.mul (vG .numeng) (.var (.F i)))
        (.add (vS .climb .D i) (.mul (vS .climb .Wavg i) (vS .climb .theta i))))
  ++ ((List.range Nc).map fun i =>
      .tight (.le (.add (vS .climb .excessP i) (.mul (vS .climb .V i) (vS .climb .D i)))
        (.mul (.mul (vS .climb .V i) (vG .numeng)) (.var (.F i)))))

/-- All constraints written by `Mission.setup` of the simple variant itself,
in source order (`constraints` list, then `enginecruise`, then
`engineclimb` as in the `return` statement).  The assembled gpkit model
additionally contains the sub-model constraint sets, which only add
further constraints. -/
def missionSimpleConstraints (Nc Ncr : Nat) : List (Constr MVar) :=
  weightCS Nc Ncr ++ altCS Nc Ncr ++ rangeCS Nc Ncr ++ fuelCS Nc Ncr
    ++ caMinCS ++ rcminCS Nc ++ enginecruiseCS Nc Ncr ++ engineclimbCS Nc Ncr

/-! ### Concrete satisfying valuations

gpkit variables range over strictly positive reals; the witnesses below
assign explicit positive rationals.  `val3a` satisfies the two-climb
mission constraint list at `(Nclimb1, Nclimb2, Ncruise) = (1, 1, 1)`;
`val3b` and `val3c` are variations of it; `val3d` satisfies it at
`(1, 1, 2)`; `valS` satisfies the simple mission list at
`(Nclimb, Ncruise) = (1, 1)`; `valAlt` satisfies the simple variant's
altitude block at `(2, 2)`. -/

def segVal3a : Seg → SegField → ℚ
  | .climb1, .Wstart => 7
  | .climb1, .Wend => 6
  | .climb2, .Wstart => 6
  | .climb2, .Wend => 5
  | .cruise, .Wstart => 5
  | .cruise, .Wend => 4
  | .climb1, .hft => 10000
  | .climb1, .dhft => 10000
  | .climb2, .hft => 20000
  | .climb2, .dhft => 10000
  | .cruise, .hft => 20000
  | _, .V => 200
  | _, .M => 8/10
  | _, .D => 1/4
  | _, .theta => 1/4
  | _, _ => 1

def val3a : MVar → ℚ
  | .W_ftotal => 3
  | .W_total => 7
  | .CruiseAlt => 20000
  | .ReqRng => 3
  | .W_dry => 4
  | .dhftholdcl1 => 10000
  | .dhftholdcl2 => 10000
  | .sv s f _ => segVal3a s f
  | .M2 _ => 8/10
  | .M25 _ => 6/10
  | .hold2 _ => holdTwoVal
  | .hold25 _ => holdTwoFiveVal
  | .c1 _ => cOneVal
  | _ => 1

/-- Like `val3a`, but the second climb segment's per-step altitude delta is
set to 20000 ft instead of 10000 ft (the lower bound the constraints
impose is `(CruiseAlt - 10000)/Nclimb2 = 10000`). -/
def val3b : MVar → ℚ
  | .dhftholdcl2 => 20000
  | .sv .climb2 .dhft _ => 20000
  | x => val3a x

/-- Like `val3a`, but with a large minimum-climb-rate substitution and a
tiny first-climb rate of climb. -/
def val3c : MVar → ℚ
  | .RCmin => 1000
  | x => val3a x

/-- Satisfies the two-climb mission list at `(1, 1, 2)` (two cruise
points); the signomial cruise-altitude chain together with the broadcast
`hftClimb2[-1] == hftCruise` forces the cruise step `dhftholdcr` to 0. -/
def val3d : MVar → ℚ
  | .W_total => 8
  | .W_ftotal => 4
  | .W_fcruise => 2
  | .dhftholdcr => 0
  | .sv .climb1 .Wstart _ => 8
  | .sv .climb1 .Wend _ => 7
  | .sv .climb2 .Wstart _ => 7
  | .sv .climb2 .Wend _ => 6
  | .sv .cruise .Wstart i => if i = 0 then 6 else 5
  | .sv .cruise .Wend i => if i = 0 then 5 else 4
  | .sv .cruise .dhft _ => 0
  | x => val3a x

def segValS : Seg → SegField → ℚ
  | .climb, .Wstart => 6
  | .climb, .Wend => 5
  | .cruise, .Wstart => 5
  | .cruise, .Wend => 4
  | .climb, .hft => 30000
  | .climb, .dhft => 30000
  | .cruise, .hft => 30000
  | .climb, .D => 1/2
  | .climb, .theta => 1/2
  | _, .V => 200
  | _, .M => 8/10
  | _, _ => 1

def valS : MVar → ℚ
  | .W_ftotal => 2
  | .W_total => 6
  | .CruiseAlt => 30000
  | .W_dry => 4
  | .dhfthold => 30000
  | .sv s f _ => segValS s f
  | .M2 _ => 8/10
  | .M25 _ => 6/10
  | .hold2 _ => holdTwoVal
  | .hold25 _ => holdTwoFiveVal
  | .c1 _ => cOneVal
  | _ => 1

/-- Satisfies the simple variant's altitude constraint block at
`(Nclimb, Ncruise) = (2, 2)`. -/
def valAlt : MVar → ℚ
  | .CruiseAlt => 30000
  | .dhfthold => 15000
  | .sv .cruise .hft _ => 30000
  | .sv .climb .dhft _ => 15000
  | .sv .climb .hft 0 => 15000
  | .sv .climb .hft _ => 30000
  | _ => 1

theorem val3a_pos : ∀ x : MVar, 0 < val3a x := by
  intro x
  cases x <;> try norm_num [val3a]
  case sv s f i =>
    cases s <;> cases f <;>
      norm_num [val3a, segVal3a, holdTwoVal, holdTwoFiveVal, cOneVal]
  all_goals norm_num [val3a, holdTwoVal, holdTwoFiveVal, cOneVal]

theorem valS_pos : ∀ x : MVar, 0 < valS x := by
  intro x
  cases x <;> try norm_num [valS]
  case sv s f i =>
    cases s <;> cases f <;>
      norm_num [valS, segValS, holdTwoVal, holdTwoFiveVal, cOneVal]
  all_goals norm_num [valS, holdTwoVal, holdTwoFiveVal, cOneVal]

theorem val3a_sat : satList val3a (mission2ClimbConstraints 1 1 1) := by
  norm_num [satList, mission2ClimbConstraints, weightC3, altC3, rangeC3, fuelC3,
    speedC3, enginecruiseC3, engineclimb1C3, engineclimb2C3, List.range_succ,
    List.forall_mem_cons, Constr.holds, Expr.eval, Expr.sumL, vS, vG,
    val3a, segVal3a, holdTwoVal, holdTwoFiveVal, cOneVal]

theorem valS_sat : satList valS (missionSimpleConstraints 1 1) := by
  norm_num [satList, missionSimpleConstraints, weightCS, altCS, rangeCS, fuelCS,
    caMinCS, rcminCS, enginecruiseCS, engineclimbCS, List.range_succ,
    List.forall_mem_cons, Constr.holds, Expr.eval, Expr.sumL, vS, vG,
    valS, segValS, holdTwoVal, holdTwoFiveVal, cOneVal]

theorem val3b_sat : satList val3b (mission2ClimbConstraints 1 1 1) := by
  norm_num [satList, mission2ClimbConstraints, weightC3, altC3, rangeC3, fuelC3,
    speedC3, enginecruiseC3, engineclimb1C3, engineclimb2C3, List.range_succ,
    List.forall_mem_cons, Constr.holds, Expr.eval, Expr.sumL, vS, vG,
    val3b, val3a, segVal3a, holdTwoVal, holdTwoFiveVal, cOneVal]

theorem val3c_sat : satList val3c (mission2ClimbConstraints 1 1 1) := by
  norm_num [satList, mission2ClimbConstraints, weightC3, altC3, rangeC3, fuelC3,
    speedC3, enginecruiseC3, engineclimb1C3, engineclimb2C3, List.range_succ,
    List.forall_mem_cons, Constr.holds, Expr.eval, Expr.sumL, vS, vG,
    val3c, val3a, segVal3a, holdTwoVal, holdTwoFiveVal, cOneVal]

theorem val3d_sat : satList val3d (mission2ClimbConstraints 1 1 2) := by
  norm_num [satList, mission2ClimbConstraints, weightC3, altC3, rangeC3, fuelC3,
    speedC3, enginecruiseC3, engineclimb1C3, engineclimb2C3, List.range_succ,
    List.forall_mem_cons, Constr.holds, Expr.eval, Expr.sumL, vS, vG,
    val3d, val3a, segVal3a, holdTwoVal, holdTwoFiveVal, cOneVal]

theorem valAlt_sat : satList valAlt (altCS 2 2) := by
  norm_num [satList, altCS, List.range_succ,
    List.forall_mem_cons, Constr.holds, Expr.eval, vS, vG, valAlt]

/-! ### Extraction helpers -/

theorem satList_head {V : Type} {v : V → ℚ} {c : Constr V} {l : List (Constr V)}
    (h : satList v (c :: l)) : c.holds v :=
  h c (by simp)

theorem satList_tail {V : Type} {v : V → ℚ} {c : Constr V} {l : List (Constr V)}
    (h : satList v (c :: l)) : satList v l :=
  fun d hd => h d (by simp [hd])

theorem satList_map_range {V : Type} {v : V → ℚ} {N : Nat} {g : Nat → Constr V}
    (h : satList v ((List.range N).map g)) (i : Nat) (hi : i < N) : (g i).holds v :=
  h (g i) (List.mem_map.mpr ⟨i, List.mem_range.mpr hi, rfl⟩)

theorem sat_weightC3 {N1 N2 N3 : Nat} {v : MVar → ℚ}
    (h : satList v (mission2ClimbConstraints N1 N2 N3)) : satList v (weightC3 N1 N2 N3) := by
  unfold mission2ClimbConstraints at h
  exact satList_of_append_left (satList_of_append_left (satList_of_append_left
    (satList_of_append_left (satList_of_append_left (satList_of_append_left
      (satList_of_append_left h))))))

theorem sat_altC3 {N1 N2 N3 : Nat} {v : MVar → ℚ}
    (h : satList v (mission2ClimbConstraints N1 N2 N3)) : satList v (altC3 N1 N2 N3) := by
  unfold mission2ClimbConstraints at h
  exact satList_of_append_right (satList_of_append_left (satList_of_append_left
    (satList_of_append_left (satList_of_append_left (satList_of_append_left
      (satList_of_append_left h))))))

theorem sat_rangeC3 {N1 N2 N3 : Nat} {v : MVar → ℚ}
    (h : satList v (mission2ClimbConstraints N1 N2 N3)) : satList v (rangeC3 N1 N2 N3) := by
  unfold mission2ClimbConstraints at h
  exact satList_of_append_right (satList_of_append_left (satList_of_append_left
    (satList_of_append_left (satList_of_append_left (satList_of_append_left h)))))

theorem sat_weightCS {Nc Ncr : Nat} {v : MVar → ℚ}
    (h : satList v (missionSimpleConstraints Nc Ncr)) : satList v (weightCS Nc Ncr) := by
  unfold missionSimpleConstraints at h
  exact satList_of_append_left (satList_of_append_left (satList_of_append_left
    (satList_of_append_left (satList_of_append_left (satList_of_append_left
      (satList_of_append_left h))))))

theorem sat_altCS {Nc Ncr : Nat} {v : MVar → ℚ}
    (h : satList v (missionSimpleConstraints Nc Ncr)) : satList v (altCS Nc Ncr) := by
  unfold missionSimpleConstraints at h
  exact satList_of_append_right (satList_of_append_left (satList_of_append_left
    (satList_of_append_left (satList_of_append_left (satList_of_append_left
      (satList_of_append_left h))))))

theorem sat_rangeCS {Nc Ncr : Nat} {v : MVar → ℚ}
    (h : satList v (missionSimpleConstraints Nc Ncr)) : satList v (rangeCS Nc Ncr) := by
  unfold missionSimpleConstraints at h
  exact satList_of_append_right (satList_of_append_left (satList_of_append_left
    (satList_of_append_left (satList_of_append_left (satList_of_append_left h)))))

theorem sat_rcminCS {Nc Ncr : Nat} {v : MVar → ℚ}
    (h : satList v (missionSimpleConstraints Nc Ncr)) : satList v (rcminCS Nc) := by
  unfold missionSimpleConstraints at h
  exact satList_of_append_right (satList_of_append_left (satList_of_append_left h))

/-- Semantic content of the weight block of the two-climb-segment
`Mission.setup`. -/
theorem weightC3_facts (N1 N2 N3 : Nat) (v : MVar → ℚ)
    (h : satList v (weightC3 N1 N2 N3)) :
    v (.sv .climb1 .Wstart 0) = v .W_total
    ∧ v (.sv .climb1 .Wend (N1 - 1)) = v (.sv .climb2 .Wstart 0)
    ∧ v (.sv .climb2 .Wend (N2 - 1)) = v (.sv .cruise .Wstart 0)
    ∧ (∀ i < N1, v (.sv .climb1 .Wend i) + v (.sv .climb1 .Wburn i) ≤ v (.sv .climb1 .Wstart i))
    ∧ (∀ i < N2, v (.sv .climb2 .Wend i) + v (.sv .climb2 .Wburn i) ≤ v (.sv .climb2 .Wstart i))
    ∧ (∀ i < N3, v (.sv .cruise .Wend i) + v (.sv .cruise .Wburn i) ≤ v (.sv .cruise .Wstart i))
    ∧ (∀ i < N1 - 1, v (.sv .climb1 .Wstart (i + 1)) = v (.sv .climb1 .Wend i))
    ∧ (∀ i < N2 - 1, v (.sv .climb2 .Wstart (i + 1)) = v (.sv .climb2 .Wend i))
    ∧ (∀ i < N3 - 1, v (.sv .cruise .Wstart (i + 1)) = v (.sv .cruise .Wend i))
    ∧ v .W_dry ≤ v (.sv .cruise .Wend (N3 - 1)) := by
  unfold weightC3 at h
  have hL7 := satList_of_append_right h
  have h6 := satList_of_append_left h
  have hM6 := satList_of_append_right h6
  have h5 := satList_of_append_left h6
  have hM5 := satList_of_append_right h5
  have h4 := satList_of_append_left h5
  have hM4 := satList_of_append_right h4
  have h3 := satList_of_append_left h4
  have hM3 := satList_of_append_right h3
  have h2 := satList_of_append_left h3
  have hM2 := satList_of_append_right h2
  have h1 := satList_of_append_left h2
  have hM1 := satList_of_append_right h1
  have hL0 := satList_of_append_left h1
  refine ⟨?_, ?_, ?_, ?_, ?_, ?_, ?_, ?_, ?_, ?_⟩
  · simpa [Constr.holds, vS, vG, Expr.eval] using
      satList_head (satList_tail (satList_tail hL0))
  · simpa [Constr.holds, vS, vG, Expr.eval] using
      satList_head (satList_tail (satList_tail (satList_tail hL0)))
  · simpa [Constr.holds, vS, vG, Expr.eval] using
      satList_head (satList_tail (satList_tail (satList_tail (satList_tail hL0))))
  · intro i hi
    simpa [Constr.holds, vS, vG, Expr.eval] using satList_map_range hM1 i hi
  · intro i hi
    simpa [Constr.holds, vS, vG, Expr.eval] using satList_map_range hM2 i hi
  · intro i hi
    simpa [Constr.holds, vS, vG, Expr.eval] using satList_map_range hM3 i hi
  · intro i hi
    simpa [Constr.holds, vS, vG, Expr.eval] using satList_map_range hM4 i hi
  · intro i hi
    simpa [Constr.holds, vS, vG, Expr.eval] using satList_map_range hM5 i hi
  · intro i hi
    simpa [Constr.holds, vS, vG, Expr.eval] using satList_map_range hM6 i hi
  · simpa [Constr.holds, vS, vG, Expr.eval] using satList_head hL7

/-- Semantic content of the altitude block of the two-climb-segment
`Mission.setup`. -/
theorem altC3_facts (N1 N2 N3 : Nat) (v : MVar → ℚ)
    (h : satList v (altC3 N1 N2 N3)) :
    v (.sv .cruise .hft 0) = v .CruiseAlt
    ∧ (∀ i < N3 - 1, v (.sv .cruise .hft (i + 1)) = v (.sv .cruise .hft i) + v .dhftholdcr)
    ∧ (∀ i < N2 - 1, v (.sv .climb2 .hft (i + 1)) ≤ v (.sv .climb2 .hft i) + v .dhftholdcl2)
    ∧ v (.sv .climb2 .hft 0) ≤ v .dhftholdcl2 + 10000
    ∧ (∀ i < N3, v (.sv .climb2 .hft (N2 - 1)) = v (.sv .cruise .hft i))
    ∧ (∀ i < N1 - 1, v (.sv .climb1 .hft i) + v .dhftholdcl1 ≤ v (.sv .climb1 .hft (i + 1)))
    ∧ v (.sv .climb1 .hft 0) = v (.sv .climb1 .dhft 0)
    ∧ v (.sv .climb1 .hft (N1 - 1)) = 10000
    ∧ (∀ i < N3, (v (.sv .cruise .hft i) - 10000) / (N2 : ℚ) ≤ v .dhftholdcl2)
    ∧ (∀ i < N2, v .dhftholdcl2 = v (.sv .climb2 .dhft i))
    ∧ v .dhftholdcl1 = 10000 / (N1 : ℚ)
    ∧ (∀ i < N1, v .dhftholdcl1 = v (.sv .climb1 .dhft i))
    ∧ (∀ i < N3, v (.sv .cruise .dhft i) = v .dhftholdcr) := by
  unfold altC3 at h
  have hA11 := satList_of_append_right h
  have g10 := satList_of_append_left h
  have hA10 := satList_of_append_right g10
  have g9 := satList_of_append_left g10
  have hA9 := satList_of_append_right g9
  have g8 := satList_of_append_left g9
  have hA8 := satList_of_append_right g8
  have g7 := satList_of_append_left g8
  have hA7 := satList_of_append_right g7
  have g6 := satList_of_append_left g7
  have hA6 := satList_of_append_right g6
  have g5 := satList_of_append_left g6
  have hA5 := satList_of_append_right g5
  have g4 := satList_of_append_left g5
  have hA4 := satList_of_append_right g4
  have g3 := satList_of_append_left g4
  have hA3 := satList_of_append_right g3
  have g2 := satList_of_append_left g3
  have hA2 := satList_of_append_right g2
  have g1 := satList_of_append_left g2
  have hA1 := satList_of_append_right g1
  have hA0 := satList_of_append_left g1
  refine ⟨?_, ?_, ?_, ?_, ?_, ?_, ?_, ?_, ?_, ?_, ?_, ?_, ?_⟩
  · simpa [Constr.holds, vS, vG, Expr.eval] using satList_head hA0
  · intro i hi
    simpa [Constr.holds, vS, vG, Expr.eval] using satList_map_range hA1 i hi
  · intro i hi
    simpa [Constr.holds, vS, vG, Expr.eval] using satList_map_range hA2 i hi
  · simpa [Constr.holds, vS, vG, Expr.eval] using satList_head hA3
  · intro i hi
    simpa [Constr.holds, vS, vG, Expr.eval] using satList_map_range hA4 i hi
  · intro i hi
    simpa [Constr.holds, vS, vG, Expr.eval] using satList_map_range hA5 i hi
  · simpa [Constr.holds, vS, vG, Expr.eval] using satList_head hA6
  · simpa [Constr.holds, vS, vG, Expr.eval] using
      satList_head (satList_tail hA6)
  · intro i hi
    simpa [Constr.holds, vS, vG, Expr.eval] using satList_map_range hA7 i hi
  · intro i hi
    simpa [Constr.holds, vS, vG, Expr.eval] using satList_map_range hA8 i hi
  · simpa [Constr.holds, vS, vG, Expr.eval] using satList_head hA9
  · intro i hi
    simpa [Constr.holds, vS, vG, Expr.eval] using satList_map_range hA10 i hi
  · intro i hi
    simpa [Constr.holds, vS, vG, Expr.eval] using satList_map_range hA11 i hi

/-- Semantic content of the single global range constraint of the
two-climb-segment `Mission.setup`. -/
theorem rangeC3_facts (N1 N2 N3 : Nat) (v : MVar → ℚ)
    (h : satList v (rangeC3 N1 N2 N3)) :
    v .ReqRng ≤ ((List.range N3).map fun i => v (.sv .cruise .Rng i)).sum
      + ((List.range N2).map fun i => v (.sv .climb2 .Rng i)).sum
      + ((List.range N1).map fun i => v (.sv .climb1 .Rng i)).sum := by
  have hc := satList_head (l := []) (by simpa [rangeC3] using h)
  simpa [Constr.holds, Expr.eval, Expr.eval_sumL, List.map_map, Function.comp,
    vS, vG] using hc

/-- Semantic content of the weight block of the simple `Mission.setup`. -/
theorem weightCS_facts (Nc Ncr : Nat) (v : MVar → ℚ)
    (h : satList v (weightCS Nc Ncr)) :
    v (.sv .climb .Wstart 0) = v .W_total
    ∧ v (.sv .climb .Wend (Nc - 1)) = v (.sv .cruise .Wstart 0)
    ∧ (∀ i < Nc, v (.sv .climb .Wend i) + v (.sv .climb .Wburn i) ≤ v (.sv .climb .Wstart i))
    ∧ (∀ i < Ncr, v (.sv .cruise .Wend i) + v (.sv .cruise .Wburn i) ≤ v (.sv .cruise .Wstart i))
    ∧ (∀ i < Nc - 1, v (.sv .climb .Wstart (i + 1)) = v (.sv .climb .Wend i))
    ∧ (∀ i < Ncr - 1, v (.sv .cruise .Wstart (i + 1)) = v (.sv .cruise .Wend i))
    ∧ v .W_dry ≤ v (.sv .cruise .Wend (Ncr - 1)) := by
  unfold weightCS at h
  have hL5 := satList_of_append_right h
  have h4 := satList_of_append_left h
  have hM4 := satList_of_append_right h4
  have h3 := satList_of_append_left h4
  have hM3 := satList_of_append_right h3
  have h2 := satList_of_append_left h3
  have hM2 := satList_of_append_right h2
  have h1 := satList_of_append_left h2
  have hM1 := satList_of_append_right h1
  have hL0 := satList_of_append_left h1
  refine ⟨?_, ?_, ?_, ?_, ?_, ?_, ?_⟩
  · simpa [Constr.holds, vS, vG, Expr.eval] using
      satList_head (satList_tail (satList_tail hL0))
  · simpa [Constr.holds, vS, vG, Expr.eval] using
      satList_head (satList_tail (satList_tail (satList_tail hL0)))
  · intro i hi
    simpa [Constr.holds, vS, vG, Expr.eval] using satList_map_range hM1 i hi
  · intro i hi
    simpa [Constr.holds, vS, vG, Expr.eval] using satList_map_range hM2 i hi
  · intro i hi
    simpa [Constr.holds, vS, vG, Expr.eval] using satList_map_range hM3 i hi
  · intro i hi
    simpa [Constr.holds, vS, vG, Expr.eval] using satList_map_range hM4 i hi
  · simpa [Constr.holds, vS, vG, Expr.eval] using satList_head hL5

/-- Semantic content of the altitude block of the simple `Mission.setup`. -/
theorem altCS_facts (Nc Ncr : Nat) (v : MVar → ℚ)
    (h : satList v (altCS Nc Ncr)) :
    (∀ i < Ncr, v (.sv .cruise .hft i) = v .CruiseAlt)
    ∧ (∀ i < Nc - 1, v (.sv .climb .hft i) + v (.sv .climb .dhft i) ≤ v (.sv .climb .hft (i + 1)))
    ∧ v (.sv .climb .dhft 0) ≤ v (.sv .climb .hft 0)
    ∧ (∀ i < Ncr, v (.sv .climb .hft (Nc - 1)) ≤ v (.sv .cruise .hft i))
    ∧ v .dhfthold = v (.sv .cruise .hft 0) / (Nc : ℚ)
    ∧ (∀ i < Nc, v (.sv .climb .dhft i) = v .dhfthold) := by
  unfold altCS at h
  have hB5 := satList_of_append_right h
  have g4 := satList_of_append_left h
  have hB4 := satList_of_append_right g4
  have g3 := satList_of_append_left g4
  have hB3 := satList_of_append_right g3
  have g2 := satList_of_append_left g3
  have hB2 := satList_of_append_right g2
  have g1 := satList_of_append_left g2
  have hB1 := satList_of_append_right g1
  have hB0 := satList_of_append_left g1
  refine ⟨?_, ?_, ?_, ?_, ?_, ?_⟩
  · intro i hi
    simpa [Constr.holds, vS, vG, Expr.eval] using satList_map_range hB0 i hi
  · intro i hi
    simpa [Constr.holds, vS, vG, Expr.eval] using satList_map_range hB1 i hi
  · simpa [Constr.holds, vS, vG, Expr.eval] using satList_head hB2
  · intro i hi
    simpa [Constr.holds, vS, vG, Expr.eval] using satList_map_range hB3 i hi
  · simpa [Constr.holds, vS, vG, Expr.eval] using satList_head hB4
  · intro i hi
    simpa [Constr.holds, vS, vG, Expr.eval] using satList_map_range hB5 i hi

/-- Semantic content of the per-cruise-segment range constraints of the
simple `Mission.setup`. -/
theorem rangeCS_facts (Nc Ncr : Nat) (v : MVar → ℚ)
    (h : satList v (rangeCS Nc Ncr)) :
    ∀ i < Ncr, v (.sv .cruise .Rng i) = v .ReqRng / (Ncr : ℚ) := by
  intro i hi
  simpa [Constr.holds, vS, vG, Expr.eval] using
    satList_map_range (by simpa [rangeCS] using h) i hi

/-- Semantic content of the minimum-climb-rate constraints of the simple
`Mission.setup`. -/
theorem rcminCS_facts (Nc : Nat) (v : MVar → ℚ)
    (h : satList v (rcminCS Nc)) :
    ∀ i < Nc, v .RCmin ≤ v (.sv .climb .RC i) := by
  intro i hi
  simpa [Constr.holds, vS, vG, Expr.eval] using
    satList_map_range (by simpa [rcminCS] using h) i hi

/-- Does an expression mention a given variable? -/
def Expr.mentions {V : Type} [DecidableEq V] : Expr V → V → Bool
  | .var y, x => decide (y = x)
  | .const _, _ => false
  | .add a b, x => a.mentions x || b.mentions x
  | .sub a b, x => a.mentions x || b.mentions x
  | .mul a b, x => a.mentions x || b.mentions x
  | .div a b, x => a.mentions x || b.mentions x

/-- Does a constraint mention a given variable? -/
def Constr.mentions {V : Type} [DecidableEq V] : Constr V → V → Bool
  | .eq a b, x => a.mentions x || b.mentions x
  | .le a b, x => a.mentions x || b.mentions x
  | .ge a b, x => a.mentions x || b.mentions x
  | .sigEq a b, x => a.mentions x || b.mentions x
  | .tight c, x => c.mentions x

/-- Is a constraint of the shape `cruise Rng[i] == ReqRng / constant`
(the simple variant's per-cruise-segment range equality)? -/
def isCruiseRngEq : Constr MVar → Bool
  | .eq (.var (.sv .cruise .Rng _)) (.div (.var .ReqRng) (.const _)) => true
  | _ => false

theorem mapM_some_of_mem {α : Type} (f : α → Option α) :
    ∀ l : List α, (∀ c ∈ l, f c = some c) → l.mapM f = some l := by
  intro l
  induction l with
  | nil => intro _; rfl
  | cons a t ih =>
    intro h
    rw [List.mapM_cons, h a (by simp), ih (fun c hc => h c (by simp [hc]))]
    rfl

/-- When the segment lengths sum to (at most) the shared flight-state
length, every bounds-checked access succeeds and `StateLinking` returns
exactly the generated link constraints. -/
theorem stateLink3_complete (N1 N2 N3 L : Nat) (h : N1 + N2 + N3 ≤ L) :
    stateLink3 N1 N2 N3 L = some (stateLinking3 N1 N2 N3) := by
  unfold stateLink3
  refine mapM_some_of_mem _ _ ?_
  intro c hc
  obtain ⟨-, hchar⟩ := mem_stateLinking3 N1 N2 N3 c hc
  unfold checkIdx
  rw [if_pos]
  rcases hchar with ⟨-, hlt, hg⟩ | ⟨-, hlt, hg⟩ | ⟨-, hlt, hg⟩ <;> omega

/-! ### The claims -/

/-- Claim C1: for every mission whose segment lengths sum to the shared
flight-state length, `StateLinking` emits exactly 18 equality constraints
per global index (one per tracked field); the constraint for global index
`sum(len(segment_1..k-1)) + i` references segment `k`'s local index `i`;
no (field, segment, local-index) reference is ever emitted twice; and in
the two-segment variant every constraint with global index `N1 + j`
references segment 2's local index `j`, never segment 1's. -/
theorem claim_C1_state_linking (N1 N2 N3 : Nat) :
    (stateLinking3 N1 N2 N3).length = 18 * (N1 + N2 + N3)
    ∧ (∀ g, g < N1 + N2 + N3 →
        (stateLinking3 N1 N2 N3).countP (fun c => c.globalIdx == g) = 18)
    ∧ (∀ c ∈ stateLinking3 N1 N2 N3,
        c.field < 18 ∧
          ((c.seg = 1 ∧ c.localIdx < N1 ∧ c.globalIdx = c.localIdx) ∨
           (c.seg = 2 ∧ c.localIdx < N2 ∧ c.globalIdx = c.localIdx + N1) ∨
           (c.seg = 3 ∧ c.localIdx < N3 ∧ c.globalIdx = c.localIdx + N1 + N2)))
    ∧ (stateLinking3 N1 N2 N3).Nodup
    ∧ stateLink3 N1 N2 N3 (N1 + N2 + N3) = some (stateLinking3 N1 N2 N3)
    ∧ (∀ j, ∀ c ∈ stateLinking2 N1 N2, c.globalIdx = N1 + j →
        c.seg = 2 ∧ c.localIdx = j) := by
  refine ⟨stateLinking3_length N1 N2 N3,
    fun g hg => stateLinking3_countP_global N1 N2 N3 g hg,
    fun c hc => mem_stateLinking3 N1 N2 N3 c hc,
    stateLinking3_nodup N1 N2 N3,
    stateLink3_complete N1 N2 N3 (N1 + N2 + N3) le_rfl, ?_⟩
  intro j c hc hg
  obtain ⟨-, hchar⟩ := mem_stateLinking2 N1 N2 c hc
  rcases hchar with ⟨h1, hlt, hgl⟩ | ⟨h2, hlt, hgl⟩
  · omega
  · exact ⟨h2, by omega⟩

/-- Witness for C1 at concrete segment lengths `(2, 3, 4)`. -/
theorem claim_C1_state_linking_witness :
    (stateLinking3 2 3 4).countP (fun c => c.globalIdx == 5) = 18
    ∧ (stateLinking3 2 3 4).length = 18 * 9
    ∧ ((⟨0, 2, 1, 3⟩ : LinkConstraint).seg = 2
        ∧ (⟨0, 2, 1, 3⟩ : LinkConstraint).localIdx = 1) :=
  ⟨(claim_C1_state_linking 2 3 4).2.1 5 (by norm_num),
   (claim_C1_state_linking 2 3 4).1,
   (claim_C1_state_linking 2 3 4).2.2.2.2.2 1 ⟨0, 2, 1, 3⟩ (by decide) (by decide)⟩

/-- Claim C2 (code bug): `StateLinking` performs no validation of the
segment-length sum against the shared flight-state length.  With
`Nclimb = Ncruise = 1` against a shared sequence of length 3, construction
succeeds (no error is raised) and global index 2 is never linked — the
silent truncation the claim says must not happen.  Only when the segment
lengths overrun the shared sequence does construction abort, and then with
a bare `IndexError`, not a designed validation error. -/
theorem claim_C2_no_length_validation :
    stateLink2 1 1 3 = some (stateLinking2 1 1)
    ∧ (∀ c ∈ stateLinking2 1 1, c.globalIdx ≠ 2)
    ∧ stateLink2 2 2 3 = none := by
  refine ⟨by decide, by decide, by decide⟩

/-- Claim C3: in both Mission variants the weight-chaining constraints
hold at every satisfying assignment: the first climb sub-point's start
weight equals the total aircraft weight; each segment's final end weight
equals the next segment's first start weight; within every segment
`W_start[i+1] == W_end[i]`; and the dry weight is at most the final cruise
sub-point's end weight. -/
theorem claim_C3_weight_chaining :
    (∀ N1 N2 N3 : Nat, ∀ v : MVar → ℚ,
      satList v (mission2ClimbConstraints N1 N2 N3) →
        v (.sv .climb1 .Wstart 0) = v .W_total
        ∧ v (.sv .climb1 .Wend (N1 - 1)) = v (.sv .climb2 .Wstart 0)
        ∧ v (.sv .climb2 .Wend (N2 - 1)) = v (.sv .cruise .Wstart 0)
        ∧ (∀ i < N1 - 1, v (.sv .climb1 .Wstart (i + 1)) = v (.sv .climb1 .Wend i))
        ∧ (∀ i < N2 - 1, v (.sv .climb2 .Wstart (i + 1)) = v (.sv .climb2 .Wend i))
        ∧ (∀ i < N3 - 1, v (.sv .cruise .Wstart (i + 1)) = v (.sv .cruise .Wend i))
        ∧ v .W_dry ≤ v (.sv .cruise .Wend (N3 - 1)))
    ∧ (∀ Nc Ncr : Nat, ∀ w : MVar → ℚ,
      satList w (missionSimpleConstraints Nc Ncr) →
        w (.sv .climb .Wstart 0) = w .W_total
        ∧ w (.sv .climb .Wend (Nc - 1)) = w (.sv .cruise .Wstart 0)
        ∧ (∀ i < Nc - 1, w (.sv .climb .Wstart (i + 1)) = w (.sv .climb .Wend i))
        ∧ (∀ i < Ncr - 1, w (.sv .cruise .Wstart (i + 1)) = w (.sv .cruise .Wend i))
        ∧ w .W_dry ≤ w (.sv .cruise .Wend (Ncr - 1))) := by
  constructor
  · intro N1 N2 N3 v h
    obtain ⟨f1, f2, f3, -, -, -, f7, f8, f9, f10⟩ :=
      weightC3_facts N1 N2 N3 v (sat_weightC3 h)
    exact ⟨f1, f2, f3, f7, f8, f9, f10⟩
  · intro Nc Ncr w h
    obtain ⟨f1, f2, -, -, f5, f6, f7⟩ := weightCS_facts Nc Ncr w (sat_weightCS h)
    exact ⟨f1, f2, f5, f6, f7⟩

/-- Witness for C3 at concrete satisfying valuations of both variants. -/
theorem claim_C3_weight_chaining_witness :
    val3a (.sv .climb1 .Wstart 0) = val3a .W_total
    ∧ valS (.sv .climb .Wstart 0) = valS .W_total :=
  ⟨(claim_C3_weight_chaining.1 1 1 1 val3a val3a_sat).1,
   (claim_C3_weight_chaining.2 1 1 valS valS_sat).1⟩

/-- Claim C4 counterexample: a valuation satisfying every constraint
assembled by the two-climb `Mission.setup` at `(1, 1, 1)` in which the
second climb segment's per-step altitude delta (20000 ft) differs from
`(CruiseAlt - 10000 ft)/Nclimb2` (10000 ft): the source line 147
constrains the delta only from below with `>=` (the equality variant,
line 148, is commented out), so the delta is not constrained equal. -/
theorem claim_C4_climb2_delta_counterexample :
    satList val3b (mission2ClimbConstraints 1 1 1)
    ∧ val3b (.sv .climb2 .dhft 0) ≠ (val3b .CruiseAlt - 10000) / (1 : ℚ) := by
  refine ⟨val3b_sat, ?_⟩
  norm_num [val3b, val3a]

/-- Claim C4 as amended: the first climb segment's per-step delta is
constrained equal to `10000 ft / N1` and its final altitude equals
10000 ft, but the second climb segment's per-step delta is only
constrained from below by `(CruiseAlt - 10000 ft) / N2`
(with `dhftcl2 == dhftholdcl2`). -/
theorem claim_C4_altitude_deltas (N1 N2 N3 : Nat) (v : MVar → ℚ) (h3 : 0 < N3)
    (h : satList v (mission2ClimbConstraints N1 N2 N3)) :
    v .dhftholdcl1 = 10000 / (N1 : ℚ)
    ∧ (∀ i < N1, v (.sv .climb1 .dhft i) = v .dhftholdcl1)
    ∧ v (.sv .climb1 .hft (N1 - 1)) = 10000
    ∧ (v .CruiseAlt - 10000) / (N2 : ℚ) ≤ v .dhftholdcl2
    ∧ (∀ i < N2, v (.sv .climb2 .dhft i) = v .dhftholdcl2) := by
  obtain ⟨a1, -, -, -, -, -, -, a8, a9, a10, a11, a12, a13⟩ :=
    altC3_facts N1 N2 N3 v (sat_altC3 h)
  refine ⟨a11, fun i hi => (a12 i hi).symm, a8, ?_, fun i hi => (a10 i hi).symm⟩
  have h0 := a9 0 h3
  rwa [a1] at h0

/-- Witness for the amended C4 at `(1, 1, 1)` with a concrete satisfying
valuation. -/
theorem claim_C4_altitude_deltas_witness :
    val3a .dhftholdcl1 = 10000 / (1 : ℚ)
    ∧ (val3a .CruiseAlt - 10000) / (1 : ℚ) ≤ val3a .dhftholdcl2 := by
  have h := claim_C4_altitude_deltas 1 1 1 val3a (by norm_num) val3a_sat
  exact ⟨h.1, h.2.2.2.1⟩

/-- Claim C5: altitude chaining in the two-climb variant: the top of the
first climb segment is fixed at 10000 ft, the top of the second climb
segment equals the first cruise sub-point's altitude, and the first
cruise sub-point's altitude equals the `CruiseAlt` variable. -/
theorem claim_C5_altitude_chaining (N1 N2 N3 : Nat) (v : MVar → ℚ) (h3 : 0 < N3)
    (h : satList v (mission2ClimbConstraints N1 N2 N3)) :
    v (.sv .climb1 .hft (N1 - 1)) = 10000
    ∧ v (.sv .climb2 .hft (N2 - 1)) = v (.sv .cruise .hft 0)
    ∧ v (.sv .cruise .hft 0) = v .CruiseAlt := by
  obtain ⟨a1, -, -, -, a5, -, -, a8, -, -, -, -, -⟩ :=
    altC3_facts N1 N2 N3 v (sat_altC3 h)
  exact ⟨a8, a5 0 h3, a1⟩

/-- Witness for C5 at `(1, 1, 1)` with a concrete satisfying valuation. -/
theorem claim_C5_altitude_chaining_witness :
    val3a (.sv .climb1 .hft 0) = 10000
    ∧ val3a (.sv .cruise .hft 0) = val3a .CruiseAlt := by
  have h := claim_C5_altitude_chaining 1 1 1 val3a (by norm_num) val3a_sat
  exact ⟨h.1, h.2.2⟩

/-- Claim C6 (code bug): the minimum-climb-rate floor is enforced only in
the simple variant.  In the two-climb variant the constraint is commented
out (source line 164), so no constraint assembled by `Mission.setup(3,3,8)`
— the configuration the file itself solves, with `RC_{min} = 500` in its
substitutions and a whole `RC_{min}` sweep section — mentions `RC_{min}`
at all, and a valuation satisfying every constraint of
`Mission.setup(1,1,1)` can have a first-climb rate of climb (1 ft/min) far
below `RC_{min}` (1000 ft/min).  The simple variant does carry
`climb['RC'] >= RCmin` (shown here at its test configuration `(2, 2)`). -/
theorem claim_C6_rcmin_code_bug :
    ((mission2ClimbConstraints 3 3 8).all fun c => !(c.mentions .RCmin)) = true
    ∧ satList val3c (mission2ClimbConstraints 1 1 1)
    ∧ val3c (.sv .climb1 .RC 0) < val3c .RCmin
    ∧ (Constr.ge (vS .climb .RC 0) (vG .RCmin)) ∈ missionSimpleConstraints 2 2 := by
  refine ⟨by decide, val3c_sat, ?_, by decide⟩
  norm_num [val3c, val3a, segVal3a]

/-- Claim C7: the range requirement per variant: the two-climb variant has
a single global inequality (total of climb-1, climb-2 and cruise downrange
contributions at least `ReqRng`); the simple variant sets each cruise
sub-segment's range equal to `ReqRng / Ncruise`, and (at its own test
configuration `(2, 2)`) the only constraints mentioning `ReqRng` are
exactly those per-cruise-segment equalities — no credit for climb
distance. -/
theorem claim_C7_range (N1 N2 N3 Nc Ncr : Nat) (v w : MVar → ℚ)
    (hv : satList v (mission2ClimbConstraints N1 N2 N3))
    (hw : satList w (missionSimpleConstraints Nc Ncr)) :
    (v .ReqRng ≤ ((List.range N3).map fun i => v (.sv .cruise .Rng i)).sum
      + ((List.range N2).map fun i => v (.sv .climb2 .Rng i)).sum
      + ((List.range N1).map fun i => v (.sv .climb1 .Rng i)).sum)
    ∧ (∀ i < Ncr, w (.sv .cruise .Rng i) = w .ReqRng / (Ncr : ℚ))
    ∧ ((missionSimpleConstraints 2 2).all fun c =>
        !(c.mentions .ReqRng) || isCruiseRngEq c) = true :=
  ⟨rangeC3_facts N1 N2 N3 v (sat_rangeC3 hv),
   rangeCS_facts Nc Ncr w (sat_rangeCS hw),
   by decide⟩

/-- Witness for C7 at concrete satisfying valuations of both variants. -/
theorem claim_C7_range_witness :
    valS (.sv .cruise .Rng 0) = valS .ReqRng / (1 : ℚ) :=
  (claim_C7_range 1 1 1 1 1 val3a valS val3a_sat valS_sat).2.1 0 (by norm_num)

/-- Claim C8: in the two-climb (cruise-climb) variant every successive
pair of cruise sub-point altitudes is pinned by a signomial equality —
the constraint list contains
`SignomialEquality(hftCruise[i+1], hftCruise[i] + dhftholdcr)` for every
`i < Ncruise - 1` — and consequently every satisfying assignment has
`hftCruise[i+1] = hftCruise[i] + dhftholdcr` exactly (not one-sidedly). -/
theorem claim_C8_cruise_sigeq (N1 N2 N3 : Nat) (i : Nat) (hi : i + 1 < N3) :
    (Constr.sigEq (vS .cruise .hft (i + 1)) (.add (vS .cruise .hft i) (vG .dhftholdcr))
        ∈ mission2ClimbConstraints N1 N2 N3)
    ∧ ∀ v : MVar → ℚ, satList v (mission2ClimbConstraints N1 N2 N3) →
        v (.sv .cruise .hft (i + 1)) = v (.sv .cruise .hft i) + v .dhftholdcr := by
  constructor
  · have hmem : Constr.sigEq (vS .cruise .hft (i + 1))
        (.add (vS .cruise .hft i) (vG .dhftholdcr)) ∈ altC3 N1 N2 N3 := by
      unfold altC3
      refine List.mem_append_left _ (List.mem_append_left _ (List.mem_append_left _
        (List.mem_append_left _ (List.mem_append_left _ (List.mem_append_left _
          (List.mem_append_left _ (List.mem_append_left _ (List.mem_append_left _
            (List.mem_append_left _ (List.mem_append_right _ ?_))))))))))
      exact List.mem_map.mpr ⟨i, List.mem_range.mpr (by omega), rfl⟩
    unfold mission2ClimbConstraints
    exact List.mem_append_left _ (List.mem_append_left _ (List.mem_append_left _
      (List.mem_append_left _ (List.mem_append_left _ (List.mem_append_left _
        (List.mem_append_right _ hmem))))))
  · intro v h
    obtain ⟨-, a2, -⟩ := altC3_facts N1 N2 N3 v (sat_altC3 h)
    exact a2 i (by omega)

/-- Witness for C8 at `(1, 1, 2)` with a concrete satisfying valuation
(with two cruise points the broadcast `hftClimb2[-1] == hftCruise` forces
the step to 0, which the positive-variable domain of gpkit cannot attain,
but the constraint semantics over ℚ can). -/
theorem claim_C8_cruise_sigeq_witness :
    val3d (.sv .cruise .hft 1) = val3d (.sv .cruise .hft 0) + val3d .dhftholdcr :=
  (claim_C8_cruise_sigeq 1 1 2 0 (by norm_num)).2 val3d val3d_sat

/-- Claim C9: at every satisfying assignment with all variables positive
(the gpkit domain), the per-sub-point start weight is strictly decreasing
along the whole mission, within each segment and across each segment
boundary, in both variants. -/
theorem claim_C9_weight_monotone :
    (∀ N1 N2 N3 : Nat, ∀ v : MVar → ℚ, 0 < N1 → 0 < N2 → 0 < N3 →
      (∀ x, 0 < v x) → satList v (mission2ClimbConstraints N1 N2 N3) →
      (∀ i, i + 1 < N1 → v (.sv .climb1 .Wstart (i + 1)) < v (.sv .climb1 .Wstart i))
      ∧ (∀ i, i + 1 < N2 → v (.sv .climb2 .Wstart (i + 1)) < v (.sv .climb2 .Wstart i))
      ∧ (∀ i, i + 1 < N3 → v (.sv .cruise .Wstart (i + 1)) < v (.sv .cruise .Wstart i))
      ∧ v (.sv .climb2 .Wstart 0) < v (.sv .climb1 .Wstart (N1 - 1))
      ∧ v (.sv .cruise .Wstart 0) < v (.sv .climb2 .Wstart (N2 - 1)))
    ∧ (∀ Nc Ncr : Nat, ∀ w : MVar → ℚ, 0 < Nc → 0 < Ncr →
      (∀ x, 0 < w x) → satList w (missionSimpleConstraints Nc Ncr) →
      (∀ i, i + 1 < Nc → w (.sv .climb .Wstart (i + 1)) < w (.sv .climb .Wstart i))
      ∧ (∀ i, i + 1 < Ncr → w (.sv .cruise .Wstart (i + 1)) < w (.sv .cruise .Wstart i))
      ∧ w (.sv .cruise .Wstart 0) < w (.sv .climb .Wstart (Nc - 1))) := by
  constructor
  · intro N1 N2 N3 v h1 h2 h3 hpos hsat
    obtain ⟨-, f2, f3, f4, f5, f6, f7, f8, f9, -⟩ :=
      weightC3_facts N1 N2 N3 v (sat_weightC3 hsat)
    refine ⟨?_, ?_, ?_, ?_, ?_⟩
    · intro i hi
      have ha := f4 i (by omega)
      have hb := f7 i (by omega)
      have hc := hpos (.sv .climb1 .Wburn i)
      linarith
    · intro i hi
      have ha := f5 i (by omega)
      have hb := f8 i (by omega)
      have hc := hpos (.sv .climb2 .Wburn i)
      linarith
    · intro i hi
      have ha := f6 i (by omega)
      have hb := f9 i (by omega)
      have hc := hpos (.sv .cruise .Wburn i)
      linarith
    · have ha := f4 (N1 - 1) (by omega)
      have hc := hpos (.sv .climb1 .Wburn (N1 - 1))
      linarith
    · have ha := f5 (N2 - 1) (by omega)
      have hc := hpos (.sv .climb2 .Wburn (N2 - 1))
      linarith
  · intro Nc Ncr w h1 h2 hpos hsat
    obtain ⟨-, f2, f3, f4, f5, f6, -⟩ := weightCS_facts Nc Ncr w (sat_weightCS hsat)
    refine ⟨?_, ?_, ?_⟩
    · intro i hi
      have ha := f3 i (by omega)
      have hb := f5 i (by omega)
      have hc := hpos (.sv .climb .Wburn i)
      linarith
    · intro i hi
      have ha := f4 i (by omega)
      have hb := f6 i (by omega)
      have hc := hpos (.sv .cruise .Wburn i)
      linarith
    · have ha := f3 (Nc - 1) (by omega)
      have hc := hpos (.sv .climb .Wburn (Nc - 1))
      linarith

/-- Witness for C9 at concrete positive satisfying valuations of both
variants. -/
theorem claim_C9_weight_monotone_witness :
    val3a (.sv .climb2 .Wstart 0) < val3a (.sv .climb1 .Wstart 0)
    ∧ valS (.sv .cruise .Wstart 0) < valS (.sv .climb .Wstart 0) :=
  ⟨(claim_C9_weight_monotone.1 1 1 1 val3a (by norm_num) (by norm_num) (by norm_num)
      val3a_pos val3a_sat).2.2.2.1,
   (claim_C9_weight_monotone.2 1 1 valS (by norm_num) (by norm_num)
      valS_pos valS_sat).2.2⟩

/-- Claim C10 counterexample: at the simple variant's own test sizes
`(Nclimb, Ncruise) = (2, 2)` there is no assignment satisfying the
altitude constraints with the final climb altitude strictly below
`CruiseAlt`: the chained lower bounds
`hftClimb[0] >= dhft[0]`, `hftClimb[i+1] >= hftClimb[i] + dhft[i]` with
`dhft == hftCruise[0]/Nclimb` already force `hftClimb[-1] >= CruiseAlt`,
so the claimed altitude discontinuity is impossible. -/
theorem claim_C10_gap_counterexample :
    ¬ ∃ v : MVar → ℚ, satList v (altCS 2 2) ∧ v (.sv .climb .hft 1) < v .CruiseAlt := by
  rintro ⟨v, hsat, hlt⟩
  obtain ⟨b1, b2, b3, b4, b5, b6⟩ := altCS_facts 2 2 v hsat
  have hcr0 : v (.sv .cruise .hft 0) = v .CruiseAlt := b1 0 (by norm_num)
  have hd0 : v (.sv .climb .dhft 0) = v .dhfthold := b6 0 (by norm_num)
  have hstep : v (.sv .climb .hft 0) + v (.sv .climb .dhft 0) ≤ v (.sv .climb .hft 1) := by
    simpa using b2 0 (by norm_num)
  have e1 : v (.sv .climb .dhft 0) = v .CruiseAlt / 2 := by
    rw [hd0, b5, hcr0]
    norm_num
  linarith [b3, hstep, e1, hlt]

/-- Claim C10 as amended: in the simple variant the final climb sub-point
altitude is indeed bounded above by the cruise altitude
(`hftClimb[-1] <= hftCruise`), but the altitude constraints as a whole
force equality: at every satisfying assignment the final climb sub-point
altitude equals `CruiseAlt`; no climb/cruise altitude discontinuity is
permitted. -/
theorem claim_C10_climb_reaches_cruise (Nc Ncr : Nat) (v : MVar → ℚ)
    (hNc : 0 < Nc) (hNcr : 0 < Ncr) (h : satList v (altCS Nc Ncr)) :
    v (.sv .climb .hft (Nc - 1)) = v .CruiseAlt := by
  obtain ⟨b1, b2, b3, b4, b5, b6⟩ := altCS_facts Nc Ncr v h
  have hne : (Nc : ℚ) ≠ 0 := Nat.cast_ne_zero.mpr (by omega)
  have hcr0 := b1 0 hNcr
  have hub : v (.sv .climb .hft (Nc - 1)) ≤ v .CruiseAlt := by
    have h4 := b4 0 hNcr
    rwa [hcr0] at h4
  have hdel : ∀ i < Nc, v (.sv .climb .dhft i) = v .CruiseAlt / (Nc : ℚ) := by
    intro i hi
    rw [b6 i hi, b5, hcr0]
  have key : ∀ i, i < Nc →
      ((i : ℚ) + 1) * (v .CruiseAlt / (Nc : ℚ)) ≤ v (.sv .climb .hft i) := by
    intro i
    induction i with
    | zero =>
      intro h0
      have hb := b3
      rw [hdel 0 h0] at hb
      have h00 : ((0 : ℕ) : ℚ) + 1 = 1 := by norm_num
      rw [h00, one_mul]
      exact hb
    | succ n ih =>
      intro hn
      have hstep := b2 n (by omega)
      have ihh := ih (by omega)
      have hexp : ((n + 1 : ℕ) : ℚ) + 1 = ((n : ℚ) + 1) + 1 := by push_cast; ring
      rw [hexp, add_mul, one_mul]
      rw [hdel n (by omega)] at hstep
      linarith
  have hlb := key (Nc - 1) (by omega)
  have hcast : (((Nc - 1 : Nat)) : ℚ) + 1 = (Nc : ℚ) := by
    rw [Nat.cast_sub (by omega : 1 ≤ Nc)]
    push_cast
    ring
  rw [hcast] at hlb
  have hmul : (Nc : ℚ) * (v .CruiseAlt / (Nc : ℚ)) = v .CruiseAlt := by
    field_simp
  rw [hmul] at hlb
  linarith

/-- Witness for the amended C10 at `(2, 2)` with a concrete valuation
satisfying the altitude constraints. -/
theorem claim_C10_climb_reaches_cruise_witness :
    valAlt (.sv .climb .hft 1) = valAlt .CruiseAlt :=
  claim_C10_climb_reaches_cruise 2 2 valAlt (by norm_num) (by norm_num) valAlt_sat

end Turbofan
